import Mathlib

/-!
Shallow embedding of the stateful cron detection engine of
go-magento-cron-monitor (internal/analyzer/analyzer.go), together with
proofs about its per-job heuristics, alert suppression, scheduler health
check and health-state transition tracking.

Timestamps and durations are modelled as `Int` (nanosecond ticks, the unit
of Go's time.Duration); the Go zero time is `0`.  Optional values
(sql.NullTime, sql.NullString, pointers) are modelled as `Option`.  All
`time.Now()` readings inside a single poll are modelled by one parameter
`now`, passed explicitly.
-/

namespace CronMonitor

/-- A row of the cron_schedule table (database.CronSchedule). -/
structure CronSchedule where
  scheduleId : Int
  jobCode : String
  status : String
  messages : Option String
  createdAt : Int
  scheduledAt : Int
  executedAt : Option Int
  finishedAt : Option Int
  deriving Repr, DecidableEq

/-- Per-job resolved detection thresholds (config.DetectionConfig). -/
structure DetectionConfig where
  maxRunningTime : Int
  maxPendingCount : Int
  consecutiveErrors : Int
  maxMissedCount : Int
  thresholdChecks : Int
  schedulerInactivityMinutes : Int
  schedulerLookaheadMinutes : Int
  deriving Repr, DecidableEq

/-- Mutable per-job tracking state (analyzer.JobState). -/
structure JobState where
  jobCode : String
  consecutiveStuck : Int
  lastStatus : String
  lastChecked : Int
  lastAlertTime : Int
  errorStreak : Int
  missedStreak : Int
  lastSlackAlert : Int
  lastKnownState : String
  stuckSince : Int
  deriving Repr, DecidableEq

/-- Scheduler-wide tracking state (analyzer.SchedulerState). -/
structure SchedulerState where
  consecutiveInactive : Int
  lastAlertTime : Int
  deriving Repr, DecidableEq

/-- An emitted alert (logger.StuckCronAlert, modelled from its uses in
the analyzer). -/
structure StuckCronAlert where
  jobCode : String
  status : String
  runningTime : Option Int
  scheduledAt : Option Int
  executedAt : Option Int
  reason : String
  consecutiveStuck : Int
  pendingCount : Int
  errorCount : Int
  missedCount : Int
  errorMessage : String
  deriving Repr, DecidableEq

/-- A health state flip event (analyzer.StateTransition). -/
structure StateTransition where
  cronCode : String
  fromState : String
  toState : String
  timestamp : Int
  stuckDuration : Int
  status : String
  lastExecution : Int
  runningTime : Option Int
  scheduledAt : Option Int
  reason : String
  consecutiveStuck : Int
  pendingCount : Int
  errorCount : Int
  missedCount : Int
  deriving Repr, DecidableEq

/-- 5*time.Minute in nanoseconds: the alert suppression window. -/
def fiveMinutes : Int := 5 * 60 * 1000000000

/-- 24*time.Hour in nanoseconds: the stale-state garbage collection age. -/
def twentyFourHours : Int := 24 * 60 * 60 * 1000000000

/-- The Go zero value of JobState with the job code set, as created on
first observation of a job in Analyze. -/
def newJobState (jobCode : String) : JobState :=
  { jobCode := jobCode, consecutiveStuck := 0, lastStatus := "",
    lastChecked := 0, lastAlertTime := 0, errorStreak := 0,
    missedStreak := 0, lastSlackAlert := 0, lastKnownState := "",
    stuckSince := 0 }

/-- checkLongRunning: walk the job's records; skip records that are not
running or have no start time; at the first running record whose elapsed
time exceeds max_running_time, increment consecutive_stuck and emit once
the debounce depth is reached; if the walk finds none, reset
consecutive_stuck to 0. -/
def checkLongRunning (now : Int) (schedules : List CronSchedule)
    (cfg : DetectionConfig) (state : JobState) :
    JobState × Option StuckCronAlert :=
  match schedules with
  | [] => ({ state with consecutiveStuck := 0 }, none)
  | s :: rest =>
    if s.status ≠ "running" then
      checkLongRunning now rest cfg state
    else
      match s.executedAt with
      | none => checkLongRunning now rest cfg state
      | some execAt =>
        let runningTime := now - execAt
        if runningTime > cfg.maxRunningTime then
          let st := { state with consecutiveStuck := state.consecutiveStuck + 1 }
          if st.consecutiveStuck ≥ cfg.thresholdChecks then
            let m := cfg.maxRunningTime
            (st, some
              { jobCode := s.jobCode, status := s.status,
                runningTime := some runningTime,
                scheduledAt := some s.scheduledAt,
                executedAt := some execAt,
                reason := s!"job running longer than max_running_time threshold ({m})",
                consecutiveStuck := st.consecutiveStuck,
                pendingCount := 0, errorCount := 0, missedCount := 0,
                errorMessage := "" })
          else (st, none)
        else
          checkLongRunning now rest cfg state

/-- checkPendingAccumulation: count pending records in the batch; if the
count exceeds max_pending_count, increment consecutive_stuck and emit at
the debounce depth; otherwise reset the shared counter only when
last_status records that this heuristic fired last. -/
def checkPendingAccumulation (schedules : List CronSchedule)
    (cfg : DetectionConfig) (state : JobState) :
    JobState × Option StuckCronAlert :=
  let pendingCount : Int := (schedules.countP (fun s => s.status == "pending") : Nat)
  if pendingCount > cfg.maxPendingCount then
    let st := { state with consecutiveStuck := state.consecutiveStuck + 1 }
    if st.consecutiveStuck ≥ cfg.thresholdChecks then
      let mx := cfg.maxPendingCount
      let pc := pendingCount
      (st, some
        { jobCode := state.jobCode, status := "pending",
          runningTime := none, scheduledAt := none, executedAt := none,
          reason := s!"too many pending jobs ({pc} exceeds threshold of {mx})",
          consecutiveStuck := st.consecutiveStuck,
          pendingCount := pendingCount, errorCount := 0, missedCount := 0,
          errorMessage := "" })
    else (st, none)
  else
    if state.lastStatus = "pending_accumulation" then
      ({ state with consecutiveStuck := 0 }, none)
    else (state, none)

/-- The error-counting loop of checkConsecutiveErrors: walk at most `fuel`
records from the front, counting status=error entries, keeping the first
error record met, and stopping at the first status=success. -/
def scanErrors : List CronSchedule → Nat → Int × Option CronSchedule
  | _, 0 => (0, none)
  | [], _ + 1 => (0, none)
  | s :: rest, n + 1 =>
    if s.status = "error" then
      let r := scanErrors rest n
      (r.1 + 1, some s)
    else if s.status = "success" then
      (0, none)
    else
      scanErrors rest n

/-- checkConsecutiveErrors: count consecutive status=error records from
the most recent, stopping at the first status=success and bounding the
scan to 2 x consecutive_errors records; if the count reaches the
threshold, increment consecutive_stuck and emit at the debounce depth;
otherwise clear error_streak and conditionally reset the shared counter. -/
def checkConsecutiveErrors (schedules : List CronSchedule)
    (cfg : DetectionConfig) (state : JobState) :
    JobState × Option StuckCronAlert :=
  let r := scanErrors schedules (cfg.consecutiveErrors * 2).toNat
  let errorCount := r.1
  let lastError := r.2
  if errorCount ≥ cfg.consecutiveErrors then
    let st := { state with errorStreak := errorCount,
                           consecutiveStuck := state.consecutiveStuck + 1 }
    if st.consecutiveStuck ≥ cfg.thresholdChecks then
      let ec := errorCount
      let th := cfg.consecutiveErrors
      let base : StuckCronAlert :=
        { jobCode := state.jobCode, status := "error",
          runningTime := none, scheduledAt := none, executedAt := none,
          reason := s!"consecutive errors detected ({ec} meets threshold of {th})",
          consecutiveStuck := st.consecutiveStuck,
          pendingCount := 0, errorCount := errorCount, missedCount := 0,
          errorMessage := "" }
      match lastError with
      | some le =>
        match le.messages with
        | some msg =>
          (st, some { base with errorMessage := msg,
                                scheduledAt := some le.scheduledAt })
        | none => (st, some base)
      | none => (st, some base)
    else (st, none)
  else
    let st := { state with errorStreak := 0 }
    if st.lastStatus = "consecutive_errors" then
      ({ st with consecutiveStuck := 0 }, none)
    else (st, none)

/-- checkMissedExecutions: count missed records in the batch; if the count
reaches max_missed_count, increment consecutive_stuck and emit at the
debounce depth; otherwise clear missed_streak and conditionally reset the
shared counter. -/
def checkMissedExecutions (schedules : List CronSchedule)
    (cfg : DetectionConfig) (state : JobState) :
    JobState × Option StuckCronAlert :=
  let missedCount : Int := (schedules.countP (fun s => s.status == "missed") : Nat)
  if missedCount ≥ cfg.maxMissedCount then
    let st := { state with missedStreak := missedCount,
                           consecutiveStuck := state.consecutiveStuck + 1 }
    if st.consecutiveStuck ≥ cfg.thresholdChecks then
      let mc := missedCount
      let mx := cfg.maxMissedCount
      (st, some
        { jobCode := state.jobCode, status := "missed",
          runningTime := none, scheduledAt := none, executedAt := none,
          reason := s!"too many missed executions ({mc} exceeds threshold of {mx})",
          consecutiveStuck := st.consecutiveStuck,
          pendingCount := 0, errorCount := 0, missedCount := missedCount,
          errorMessage := "" })
    else (st, none)
  else
    let st := { state with missedStreak := 0 }
    if st.lastStatus = "missed_executions" then
      ({ st with consecutiveStuck := 0 }, none)
    else (st, none)

/-- One iteration of the per-job alert loop body in Analyze: run one check
and, if it produced an alert, append it unless a previous alert for this
job is less than five minutes old, updating last_alert_time on append. -/
def runCheck (now : Int) (acc : JobState × List StuckCronAlert)
    (check : JobState → JobState × Option StuckCronAlert) :
    JobState × List StuckCronAlert :=
  let r := check acc.1
  match r.2 with
  | none => (r.1, acc.2)
  | some al =>
    if fiveMinutes ≤ now - r.1.lastAlertTime then
      ({ r.1 with lastAlertTime := now }, acc.2 ++ [al])
    else (r.1, acc.2)

/-- The fixed order of the four per-job heuristics as invoked by Analyze. -/
def jobChecks (now : Int) (schedules : List CronSchedule)
    (cfg : DetectionConfig) :
    List (JobState → JobState × Option StuckCronAlert) :=
  [fun st => checkLongRunning now schedules cfg st,
   fun st => checkPendingAccumulation schedules cfg st,
   fun st => checkConsecutiveErrors schedules cfg st,
   fun st => checkMissedExecutions schedules cfg st]

/-- The per-job body of Analyze: stamp last_checked, then run the four
checks in their fixed order with the 5-minute suppression window after
each. -/
def analyzeJob (now : Int) (schedules : List CronSchedule)
    (cfg : DetectionConfig) (state : JobState) :
    JobState × List StuckCronAlert :=
  (jobChecks now schedules cfg).foldl (runCheck now)
    ({ state with lastChecked := now }, [])

/-- Append a schedule into its job's group, preserving order inside each
group (the grouping loop of Analyze and DetectStateTransitions). -/
def addToGroup (acc : List (String × List CronSchedule))
    (s : CronSchedule) : List (String × List CronSchedule) :=
  match acc with
  | [] => [(s.jobCode, [s])]
  | (k, l) :: rest =>
    if k = s.jobCode then (k, l ++ [s]) :: rest
    else (k, l) :: addToGroup rest s

/-- Group a batch of schedules by job_code. -/
def groupByJob (schedules : List CronSchedule) :
    List (String × List CronSchedule) :=
  schedules.foldl addToGroup []

/-- Update (or insert) the state stored for a job code. -/
def setState (states : List (String × JobState)) (k : String)
    (v : JobState) : List (String × JobState) :=
  match states with
  | [] => [(k, v)]
  | (k0, v0) :: rest =>
    if k0 = k then (k, v) :: rest
    else (k0, v0) :: setState rest k v

/-- cleanupOldStates: drop job states whose last_checked is older than 24
hours. -/
def cleanupOldStates (now : Int) (states : List (String × JobState)) :
    List (String × JobState) :=
  states.filter (fun p => ¬ (p.2.lastChecked < now - twentyFourHours))

/-- The per-group step of Analyze: fetch the stored state for the job (or
create a fresh one), run the per-job evaluation, store the updated state
and collect the surfaced alerts. -/
def analyzeStep (now : Int) (cfgFor : String → DetectionConfig)
    (acc : List (String × JobState) × List StuckCronAlert)
    (g : String × List CronSchedule) :
    List (String × JobState) × List StuckCronAlert :=
  let st := (acc.1.lookup g.1).getD (newJobState g.1)
  let r := analyzeJob now g.2 (cfgFor g.1) st
  (setState acc.1 g.1 r.1, acc.2 ++ r.2)

/-- Analyze: group the batch by job code, run the per-job evaluation on
the stored (or freshly created) job state, collect the surfaced alerts,
and garbage-collect stale job states. -/
def Analyze (now : Int) (cfgFor : String → DetectionConfig)
    (schedules : List CronSchedule)
    (states : List (String × JobState)) :
    List (String × JobState) × List StuckCronAlert :=
  let r := (groupByJob schedules).foldl (analyzeStep now cfgFor) (states, [])
  (cleanupOldStates now r.1, r.2)

/-- isJobHealthy: a job is healthy iff none of the four checks emits an
alert; the checks are invoked in the fixed order and each mutates the job
state exactly as it does on the alerting path. -/
def isJobHealthy (now : Int) (schedules : List CronSchedule)
    (cfg : DetectionConfig) (state : JobState) : JobState × Bool :=
  let r := checkLongRunning now schedules cfg state
  if r.2.isSome then (r.1, false)
  else
    let r := checkPendingAccumulation schedules cfg r.1
    if r.2.isSome then (r.1, false)
    else
      let r := checkConsecutiveErrors schedules cfg r.1
      if r.2.isSome then (r.1, false)
      else
        let r := checkMissedExecutions schedules cfg r.1
        if r.2.isSome then (r.1, false)
        else (r.1, true)

/-- getActualAlertReason: re-invoke the checks in the fixed order and
return the reason of the first alert produced, with a generic fallback. -/
def getActualAlertReason (now : Int) (schedules : List CronSchedule)
    (cfg : DetectionConfig) (state : JobState) : JobState × String :=
  let r := checkLongRunning now schedules cfg state
  match r.2 with
  | some al => (r.1, al.reason)
  | none =>
    let r := checkPendingAccumulation schedules cfg r.1
    match r.2 with
    | some al => (r.1, al.reason)
    | none =>
      let r := checkConsecutiveErrors schedules cfg r.1
      match r.2 with
      | some al => (r.1, al.reason)
      | none =>
        let r := checkMissedExecutions schedules cfg r.1
        match r.2 with
        | some al => (r.1, al.reason)
        | none => (r.1, "Multiple issues detected requiring attention")

/-- Accumulator of the evidence-gathering loop run when a job enters the
alerting state. -/
structure AlertEvidence where
  lastExec : Int
  scheduledAt : Option Int
  runningTime : Option Int
  currentStatus : String
  deriving Repr, DecidableEq

/-- One iteration of the evidence loop of the not_alerting-to-alerting
branch: track the greatest executed_at, the greatest scheduled_at, the
running time of the last running record seen, and the first non-empty
status (overridden by a running record's status). -/
def evidenceStep (now : Int) (e : AlertEvidence) (s : CronSchedule) :
    AlertEvidence :=
  let e :=
    match s.executedAt with
    | some t => if e.lastExec = 0 ∨ t > e.lastExec then { e with lastExec := t } else e
    | none => e
  let e :=
    match e.scheduledAt with
    | none => { e with scheduledAt := some s.scheduledAt }
    | some sa => if s.scheduledAt > sa then { e with scheduledAt := some s.scheduledAt } else e
  let e :=
    match s.executedAt with
    | some t =>
      if s.status == "running" then
        { e with runningTime := some (now - t), currentStatus := s.status }
      else e
    | none => e
  if e.currentStatus = "" then { e with currentStatus := s.status } else e

/-- Accumulator of the evidence-gathering loop run when a job recovers. -/
structure RecoveryEvidence where
  lastExec : Int
  scheduledAt : Option Int
  currentStatus : String
  deriving Repr, DecidableEq

/-- One iteration of the evidence loop of the alerting-to-not_alerting
branch: track the greatest executed_at, the greatest scheduled_at, and the
first non-empty status. -/
def recoveryStep (e : RecoveryEvidence) (s : CronSchedule) :
    RecoveryEvidence :=
  let e :=
    match s.executedAt with
    | some t => if e.lastExec = 0 ∨ t > e.lastExec then { e with lastExec := t } else e
    | none => e
  let e :=
    match e.scheduledAt with
    | none => { e with scheduledAt := some s.scheduledAt }
    | some sa => if s.scheduledAt > sa then { e with scheduledAt := some s.scheduledAt } else e
  if e.currentStatus = "" then { e with currentStatus := s.status } else e

/-- The per-job body of DetectStateTransitions: classify current health
(with the mutating checks), initialise an empty stored health state to
not_alerting, then emit a transition on each flip of the stored state. -/
def detectJob (now : Int) (jobCode : String)
    (schedules : List CronSchedule) (cfg : DetectionConfig)
    (state : JobState) : JobState × List StateTransition :=
  let h := isJobHealthy now schedules cfg state
  let isNotAlerting := h.2
  let state := h.1
  let state :=
    if state.lastKnownState = "" then
      { state with lastKnownState := "not_alerting" }
    else state
  let r1 :=
    if !isNotAlerting && state.lastKnownState == "not_alerting" then
      let state := { state with stuckSince := now }
      let e := schedules.foldl (evidenceStep now)
        { lastExec := 0, scheduledAt := none, runningTime := none,
          currentStatus := "" }
      let g := getActualAlertReason now schedules cfg state
      let state := g.1
      let t : StateTransition :=
        { cronCode := jobCode, fromState := "not_alerting",
          toState := "alerting", timestamp := now, stuckDuration := 0,
          status := e.currentStatus, lastExecution := e.lastExec,
          runningTime := e.runningTime, scheduledAt := e.scheduledAt,
          reason := g.2, consecutiveStuck := state.consecutiveStuck,
          pendingCount := 0, errorCount := 0, missedCount := 0 }
      ({ state with lastKnownState := "alerting" }, [t])
    else (state, ([] : List StateTransition))
  let state := r1.1
  if isNotAlerting && state.lastKnownState == "alerting" then
    let duration := now - state.stuckSince
    let e := schedules.foldl recoveryStep
      { lastExec := 0, scheduledAt := none, currentStatus := "" }
    let t : StateTransition :=
      { cronCode := jobCode, fromState := "alerting",
        toState := "not_alerting", timestamp := now,
        stuckDuration := duration, status := e.currentStatus,
        lastExecution := e.lastExec, runningTime := none,
        scheduledAt := e.scheduledAt, reason := "",
        consecutiveStuck := 0, pendingCount := 0, errorCount := 0,
        missedCount := 0 }
    ({ state with lastKnownState := "not_alerting", stuckSince := 0 },
     r1.2 ++ [t])
  else (state, r1.2)

/-- DetectStateTransitions: group the batch by job code and run the
per-job transition detection on every job that already has stored state,
skipping unknown jobs. -/
def DetectStateTransitions (now : Int) (cfgFor : String → DetectionConfig)
    (schedules : List CronSchedule)
    (states : List (String × JobState)) :
    List (String × JobState) × List StateTransition :=
  (groupByJob schedules).foldl
    (fun acc g =>
      match acc.1.lookup g.1 with
      | none => acc
      | some st =>
        let r := detectJob now g.1 g.2 (cfgFor g.1) st
        (setState acc.1 g.1 r.1, acc.2 ++ r.2))
    (states, [])

/-- CheckSchedulerHealth: resolve defaulted scheduler thresholds, query
the two liveness counts (each fallible), treat any query error as no
signal, reset consecutive_inactive when either count is positive, and
otherwise debounce and rate-limit a synthetic SCHEDULER alert. -/
def CheckSchedulerHealth (now : Int) (cfg : DetectionConfig)
    (recentCount : Except Unit Int) (upcomingCount : Except Unit Int)
    (st : SchedulerState) : SchedulerState × Option StuckCronAlert :=
  let inactivityMinutes :=
    if cfg.schedulerInactivityMinutes = 0 then 10
    else cfg.schedulerInactivityMinutes
  let lookaheadMinutes :=
    if cfg.schedulerLookaheadMinutes = 0 then 15
    else cfg.schedulerLookaheadMinutes
  let thresholdChecks :=
    if cfg.thresholdChecks = 0 then 2 else cfg.thresholdChecks
  match recentCount with
  | .error _ => (st, none)
  | .ok recent =>
    match upcomingCount with
    | .error _ => (st, none)
    | .ok upcoming =>
      if recent > 0 ∨ upcoming > 0 then
        ({ st with consecutiveInactive := 0 }, none)
      else
        let st := { st with consecutiveInactive := st.consecutiveInactive + 1 }
        if st.consecutiveInactive < thresholdChecks then (st, none)
        else if now - st.lastAlertTime < fiveMinutes then (st, none)
        else
          let im := inactivityMinutes
          let lm := lookaheadMinutes
          ({ st with lastAlertTime := now }, some
            { jobCode := "SCHEDULER", status := "inactive",
              runningTime := none, scheduledAt := none, executedAt := none,
              reason := s!"no jobs created in last {im} minutes and no pending jobs scheduled for next {lm} minutes",
              consecutiveStuck := st.consecutiveInactive,
              pendingCount := 0, errorCount := 0, missedCount := 0,
              errorMessage := "" })

/-- Spec-side reading of the long-running heuristic: the outcome is
decided by the first record that is running, has a start time, and has
already exceeded max_running_time; if no record exceeds, the counter is
reset. -/
def longRunningSpec (now : Int) (schedules : List CronSchedule)
    (cfg : DetectionConfig) (state : JobState) :
    JobState × Option StuckCronAlert :=
  match schedules.find? (fun s =>
      s.status == "running" && s.executedAt.isSome &&
      decide (now - s.executedAt.getD 0 > cfg.maxRunningTime)) with
  | none => ({ state with consecutiveStuck := 0 }, none)
  | some s =>
    let execAt := s.executedAt.getD 0
    let runningTime := now - execAt
    let st := { state with consecutiveStuck := state.consecutiveStuck + 1 }
    if st.consecutiveStuck ≥ cfg.thresholdChecks then
      let m := cfg.maxRunningTime
      (st, some
        { jobCode := s.jobCode, status := s.status,
          runningTime := some runningTime,
          scheduledAt := some s.scheduledAt,
          executedAt := some execAt,
          reason := s!"job running longer than max_running_time threshold ({m})",
          consecutiveStuck := st.consecutiveStuck,
          pendingCount := 0, errorCount := 0, missedCount := 0,
          errorMessage := "" })
    else (st, none)

/-- Spec-side reading of the claimed long-running scan: the length of the
run of consecutive status=error records at the front of the list. -/
def consecutiveErrorPrefixLen (schedules : List CronSchedule) : Int :=
  ((schedules.takeWhile (fun s => s.status == "error")).length : Nat)

/-- Spec-side error count of the consecutive-errors heuristic: the number
of status=error records among the first 2 x consecutive_errors records,
up to (and not including) the first status=success record. -/
def specErrorCount (schedules : List CronSchedule) (ce : Int) : Int :=
  (((schedules.take (ce * 2).toNat).takeWhile
      (fun s => s.status != "success")).countP
    (fun s => s.status == "error") : Nat)

/-- The first alert produced when threading the job state through a list
of checks in order, ignoring the suppression window. -/
def firstAlert :
    List (JobState → JobState × Option StuckCronAlert) → JobState →
    Option StuckCronAlert
  | [], _ => none
  | c :: rest, st =>
    let r := c st
    match r.2 with
    | some a => some a
    | none => firstAlert rest r.1

/-- The fields of a job state that none of the four heuristic checks ever
writes. -/
def FrameEq (a b : JobState) : Prop :=
  a.jobCode = b.jobCode ∧ a.lastStatus = b.lastStatus ∧
  a.lastChecked = b.lastChecked ∧ a.lastAlertTime = b.lastAlertTime ∧
  a.lastSlackAlert = b.lastSlackAlert ∧
  a.lastKnownState = b.lastKnownState ∧ a.stuckSince = b.stuckSince

/-- A check function that never writes last_alert_time. -/
def KeepsAlertTime (c : JobState → JobState × Option StuckCronAlert) : Prop :=
  ∀ st : JobState, ((c st).1).lastAlertTime = st.lastAlertTime

/-- A check that, started from a state owned by job `k`, keeps the state
owned by `k` and only emits alerts carrying job code `k`. -/
def CheckEmitsFor (k : String)
    (c : JobState → JobState × Option StuckCronAlert) : Prop :=
  ∀ st : JobState, st.jobCode = k →
    ((c st).1.jobCode = k ∧ ∀ al, (c st).2 = some al → al.jobCode = k)

/-- Sample schedule row used by the concrete evaluations below. -/
def mkSched (jc status : String) (sa : Int) (ea : Option Int) :
    CronSchedule :=
  { scheduleId := 1, jobCode := jc, status := status, messages := none,
    createdAt := 0, scheduledAt := sa, executedAt := ea,
    finishedAt := none }

/-- The built-in default thresholds of config.setDefaults. -/
def baseCfg : DetectionConfig :=
  { maxRunningTime := 1800000000000, maxPendingCount := 20,
    consecutiveErrors := 3, maxMissedCount := 5, thresholdChecks := 2,
    schedulerInactivityMinutes := 10, schedulerLookaheadMinutes := 15 }

/-- A sample poll instant (nanosecond epoch). -/
def tnow : Int := 1000000000000000000

theorem frameEq_refl (a : JobState) : FrameEq a a := by
  simp [FrameEq]

theorem frameEq_trans {a b c : JobState} (h1 : FrameEq a b)
    (h2 : FrameEq b c) : FrameEq a c := by
  obtain ⟨x1, x2, x3, x4, x5, x6, x7⟩ := h1
  obtain ⟨y1, y2, y3, y4, y5, y6, y7⟩ := h2
  exact ⟨x1.trans y1, x2.trans y2, x3.trans y3, x4.trans y4,
    x5.trans y5, x6.trans y6, x7.trans y7⟩

theorem checkLongRunning_frame (now : Int) (sl : List CronSchedule)
    (cfg : DetectionConfig) (st : JobState) :
    FrameEq (checkLongRunning now sl cfg st).1 st := by
  induction sl generalizing st with
  | nil => simp [checkLongRunning, FrameEq]
  | cons s rest ih =>
    unfold checkLongRunning
    split
    · exact ih st
    · split
      · exact ih st
      · dsimp only
        split
        · split <;> simp [FrameEq]
        · exact ih st

theorem checkPendingAccumulation_frame (sl : List CronSchedule)
    (cfg : DetectionConfig) (st : JobState) :
    FrameEq (checkPendingAccumulation sl cfg st).1 st := by
  unfold checkPendingAccumulation
  dsimp only
  split
  · split <;> simp [FrameEq]
  · split <;> simp [FrameEq]

theorem checkConsecutiveErrors_frame (sl : List CronSchedule)
    (cfg : DetectionConfig) (st : JobState) :
    FrameEq (checkConsecutiveErrors sl cfg st).1 st := by
  unfold checkConsecutiveErrors
  dsimp only
  split
  · split
    · split
      · split <;> simp [FrameEq]
      · simp [FrameEq]
    · simp [FrameEq]
  · split <;> simp [FrameEq]

theorem checkMissedExecutions_frame (sl : List CronSchedule)
    (cfg : DetectionConfig) (st : JobState) :
    FrameEq (checkMissedExecutions sl cfg st).1 st := by
  unfold checkMissedExecutions
  dsimp only
  split
  · split <;> simp [FrameEq]
  · split <;> simp [FrameEq]

theorem checkLongRunning_cs (now : Int) (sl : List CronSchedule)
    (cfg : DetectionConfig) (st : JobState) :
    (checkLongRunning now sl cfg st).1.consecutiveStuck =
      st.consecutiveStuck + 1 ∨
    (checkLongRunning now sl cfg st).1.consecutiveStuck = 0 := by
  induction sl generalizing st with
  | nil => simp [checkLongRunning]
  | cons s rest ih =>
    unfold checkLongRunning
    split
    · exact ih st
    · split
      · exact ih st
      · dsimp only
        split
        · split <;> simp
        · exact ih st

theorem checkPendingAccumulation_cs (sl : List CronSchedule)
    (cfg : DetectionConfig) (st : JobState) :
    (checkPendingAccumulation sl cfg st).1.consecutiveStuck =
      st.consecutiveStuck + 1 ∨
    (checkPendingAccumulation sl cfg st).1.consecutiveStuck = 0 ∨
    (checkPendingAccumulation sl cfg st).1.consecutiveStuck =
      st.consecutiveStuck := by
  unfold checkPendingAccumulation
  dsimp only
  split
  · split <;> simp
  · split <;> simp

theorem checkConsecutiveErrors_cs (sl : List CronSchedule)
    (cfg : DetectionConfig) (st : JobState) :
    (checkConsecutiveErrors sl cfg st).1.consecutiveStuck =
      st.consecutiveStuck + 1 ∨
    (checkConsecutiveErrors sl cfg st).1.consecutiveStuck = 0 ∨
    (checkConsecutiveErrors sl cfg st).1.consecutiveStuck =
      st.consecutiveStuck := by
  unfold checkConsecutiveErrors
  dsimp only
  split
  · split
    · split
      · split <;> simp
      · simp
    · simp
  · split <;> simp

theorem checkMissedExecutions_cs (sl : List CronSchedule)
    (cfg : DetectionConfig) (st : JobState) :
    (checkMissedExecutions sl cfg st).1.consecutiveStuck =
      st.consecutiveStuck + 1 ∨
    (checkMissedExecutions sl cfg st).1.consecutiveStuck = 0 ∨
    (checkMissedExecutions sl cfg st).1.consecutiveStuck =
      st.consecutiveStuck := by
  unfold checkMissedExecutions
  dsimp only
  split
  · split <;> simp
  · split <;> simp

theorem runCheck_cases (now : Int) (acc : JobState × List StuckCronAlert)
    (c : JobState → JobState × Option StuckCronAlert) :
    ((runCheck now acc c).1 = (c acc.1).1 ∧
      (runCheck now acc c).2 = acc.2) ∨
    (∃ al, (c acc.1).2 = some al ∧
      fiveMinutes ≤ now - (c acc.1).1.lastAlertTime ∧
      (runCheck now acc c).1 = { (c acc.1).1 with lastAlertTime := now } ∧
      (runCheck now acc c).2 = acc.2 ++ [al]) := by
  unfold runCheck
  dsimp only
  split
  · exact Or.inl ⟨rfl, rfl⟩
  · next al heq =>
    split
    · next hle => exact Or.inr ⟨al, heq, hle, rfl, rfl⟩
    · exact Or.inl ⟨rfl, rfl⟩

theorem foldl_runCheck_append (now : Int)
    (cs : List (JobState → JobState × Option StuckCronAlert))
    (acc : JobState × List StuckCronAlert) :
    ∃ t, (cs.foldl (runCheck now) acc).2 = acc.2 ++ t := by
  induction cs generalizing acc with
  | nil => exact ⟨[], by simp⟩
  | cons c rest ih =>
    rw [List.foldl_cons]
    obtain ⟨t, ht⟩ := ih (runCheck now acc c)
    rcases runCheck_cases now acc c with ⟨_, h⟩ | ⟨al, _, _, _, h⟩
    · exact ⟨t, by rw [ht, h]⟩
    · exact ⟨[al] ++ t, by rw [ht, h, List.append_assoc]⟩

theorem foldl_runCheck_no_append (now : Int)
    (cs : List (JobState → JobState × Option StuckCronAlert))
    (acc : JobState × List StuckCronAlert)
    (hk : ∀ c ∈ cs, KeepsAlertTime c)
    (h : now - acc.1.lastAlertTime < fiveMinutes) :
    (cs.foldl (runCheck now) acc).2 = acc.2 ∧
    (cs.foldl (runCheck now) acc).1.lastAlertTime = acc.1.lastAlertTime := by
  induction cs generalizing acc with
  | nil => exact ⟨rfl, rfl⟩
  | cons c rest ih =>
    rw [List.foldl_cons]
    have hc : KeepsAlertTime c := hk c (by simp)
    have hrest : ∀ x ∈ rest, KeepsAlertTime x := fun x hx => hk x (by simp [hx])
    rcases runCheck_cases now acc c with ⟨hst, hal⟩ | ⟨al, _, hle, _, _⟩
    · have hlat : (runCheck now acc c).1.lastAlertTime = acc.1.lastAlertTime := by
        rw [hst, hc acc.1]
      have hr := ih (runCheck now acc c) hrest (by rw [hlat]; exact h)
      exact ⟨hr.1.trans hal, hr.2.trans hlat⟩
    · rw [hc acc.1] at hle
      omega

theorem foldl_runCheck_len (now : Int)
    (cs : List (JobState → JobState × Option StuckCronAlert))
    (acc : JobState × List StuckCronAlert)
    (hk : ∀ c ∈ cs, KeepsAlertTime c) :
    (cs.foldl (runCheck now) acc).2.length ≤ acc.2.length + 1 := by
  induction cs generalizing acc with
  | nil => simp
  | cons c rest ih =>
    rw [List.foldl_cons]
    have hrest : ∀ x ∈ rest, KeepsAlertTime x := fun x hx => hk x (by simp [hx])
    rcases runCheck_cases now acc c with ⟨_, hal⟩ | ⟨al, _, _, hst, hal⟩
    · have := ih (runCheck now acc c) hrest
      rw [hal] at this
      exact this
    · have hdone := foldl_runCheck_no_append now rest (runCheck now acc c) hrest
        (by rw [hst]; simp [fiveMinutes])
      rw [hdone.1, hal]
      simp

theorem foldl_runCheck_only_if_elapsed (now : Int)
    (cs : List (JobState → JobState × Option StuckCronAlert))
    (acc : JobState × List StuckCronAlert)
    (hk : ∀ c ∈ cs, KeepsAlertTime c)
    (h : (cs.foldl (runCheck now) acc).2 ≠ acc.2) :
    fiveMinutes ≤ now - acc.1.lastAlertTime := by
  induction cs generalizing acc with
  | nil => simp at h
  | cons c rest ih =>
    rw [List.foldl_cons] at h
    have hc : KeepsAlertTime c := hk c (by simp)
    have hrest : ∀ x ∈ rest, KeepsAlertTime x := fun x hx => hk x (by simp [hx])
    rcases runCheck_cases now acc c with ⟨hst, hal⟩ | ⟨al, _, hle, _, _⟩
    · have := ih (runCheck now acc c) hrest (by rw [hal] at *; exact h)
      rw [hst, hc acc.1] at this
      exact this
    · rw [hc acc.1] at hle
      exact hle

theorem firstAlert_cons_none
    {c : JobState → JobState × Option StuckCronAlert}
    {cs : List (JobState → JobState × Option StuckCronAlert)}
    {st : JobState} (hopt : (c st).2 = none) :
    firstAlert (c :: cs) st = firstAlert cs (c st).1 := by
  conv_lhs => unfold firstAlert
  dsimp only
  rw [hopt]

theorem firstAlert_cons_some
    {c : JobState → JobState × Option StuckCronAlert}
    {cs : List (JobState → JobState × Option StuckCronAlert)}
    {st : JobState} {al : StuckCronAlert} (hopt : (c st).2 = some al) :
    firstAlert (c :: cs) st = some al := by
  conv_lhs => unfold firstAlert
  dsimp only
  rw [hopt]

theorem foldl_runCheck_first (now : Int)
    (cs : List (JobState → JobState × Option StuckCronAlert))
    (st : JobState) (as : List StuckCronAlert)
    (hk : ∀ c ∈ cs, KeepsAlertTime c)
    (h : fiveMinutes ≤ now - st.lastAlertTime) :
    (cs.foldl (runCheck now) (st, as)).2 = as ++ (firstAlert cs st).toList := by
  induction cs generalizing st as with
  | nil => simp [firstAlert]
  | cons c rest ih =>
    rw [List.foldl_cons]
    have hc : KeepsAlertTime c := hk c (by simp)
    have hrest : ∀ x ∈ rest, KeepsAlertTime x := fun x hx => hk x (by simp [hx])
    rcases hopt : (c st).2 with _ | al
    · have hr : runCheck now (st, as) c = ((c st).1, as) := by
        unfold runCheck
        dsimp only
        rw [hopt]
      rw [hr, firstAlert_cons_none hopt]
      exact ih (c st).1 as hrest (by rw [hc st]; exact h)
    · have hr : runCheck now (st, as) c =
          ({ (c st).1 with lastAlertTime := now }, as ++ [al]) := by
        unfold runCheck
        dsimp only
        rw [hopt]
        dsimp only
        rw [if_pos (by rw [hc st]; exact h)]
      rw [hr, firstAlert_cons_some hopt]
      have hdone := foldl_runCheck_no_append now rest
        ({ (c st).1 with lastAlertTime := now }, as ++ [al]) hrest
        (by simp [fiveMinutes])
      rw [hdone.1]
      simp

theorem jobChecks_keepAlertTime (now : Int) (sl : List CronSchedule)
    (cfg : DetectionConfig) :
    ∀ c ∈ jobChecks now sl cfg, KeepsAlertTime c := by
  intro c hc
  simp only [jobChecks, List.mem_cons, List.mem_singleton] at hc
  rcases hc with h | h | h | h | h
  · exact h ▸ fun st => (checkLongRunning_frame now sl cfg st).2.2.2.1
  · exact h ▸ fun st => (checkPendingAccumulation_frame sl cfg st).2.2.2.1
  · exact h ▸ fun st => (checkConsecutiveErrors_frame sl cfg st).2.2.2.1
  · exact h ▸ fun st => (checkMissedExecutions_frame sl cfg st).2.2.2.1
  · simp at h

theorem analyzeJob_len (now : Int) (sl : List CronSchedule)
    (cfg : DetectionConfig) (st : JobState) :
    (analyzeJob now sl cfg st).2.length ≤ 1 := by
  have := foldl_runCheck_len now (jobChecks now sl cfg)
    ({ st with lastChecked := now }, []) (jobChecks_keepAlertTime now sl cfg)
  simpa [analyzeJob] using this

theorem analyzeJob_elapsed (now : Int) (sl : List CronSchedule)
    (cfg : DetectionConfig) (st : JobState)
    (h : (analyzeJob now sl cfg st).2 ≠ []) :
    fiveMinutes ≤ now - st.lastAlertTime := by
  have := foldl_runCheck_only_if_elapsed now (jobChecks now sl cfg)
    ({ st with lastChecked := now }, []) (jobChecks_keepAlertTime now sl cfg)
    (by simpa [analyzeJob] using h)
  simpa using this

theorem analyzeJob_first (now : Int) (sl : List CronSchedule)
    (cfg : DetectionConfig) (st : JobState)
    (h : fiveMinutes ≤ now - st.lastAlertTime) :
    (analyzeJob now sl cfg st).2 =
      (firstAlert (jobChecks now sl cfg)
        { st with lastChecked := now }).toList := by
  have := foldl_runCheck_first now (jobChecks now sl cfg)
    { st with lastChecked := now } [] (jobChecks_keepAlertTime now sl cfg)
    (by simpa using h)
  simpa [analyzeJob] using this

theorem checkLongRunning_alert_jobCode (now : Int) {k : String}
    (sl : List CronSchedule) (cfg : DetectionConfig) (st : JobState) :
    (∀ s ∈ sl, s.jobCode = k) →
    ∀ al, (checkLongRunning now sl cfg st).2 = some al →
      al.jobCode = k := by
  induction sl generalizing st with
  | nil => simp [checkLongRunning]
  | cons s rest ih =>
    intro hs al hal
    have hrest : ∀ x ∈ rest, x.jobCode = k := fun x hx => hs x (by simp [hx])
    unfold checkLongRunning at hal
    revert hal
    split
    · exact fun hal => ih st hrest al hal
    · split
      · exact fun hal => ih st hrest al hal
      · dsimp only
        split
        · split
          · intro hal
            have h1 : al.jobCode = s.jobCode := by
              injection hal with h1
              simp [← h1]
            rw [h1]
            exact hs s (by simp)
          · simp
        · exact fun hal => ih st hrest al hal

theorem checkPendingAccumulation_alert_jobCode (sl : List CronSchedule)
    (cfg : DetectionConfig) (st : JobState) :
    ∀ al, (checkPendingAccumulation sl cfg st).2 = some al →
      al.jobCode = st.jobCode := by
  intro al hal
  unfold checkPendingAccumulation at hal
  revert hal
  dsimp only
  split
  · split
    · intro hal
      injection hal with h1
      simp [← h1]
    · simp
  · split <;> simp

theorem checkConsecutiveErrors_alert_jobCode (sl : List CronSchedule)
    (cfg : DetectionConfig) (st : JobState) :
    ∀ al, (checkConsecutiveErrors sl cfg st).2 = some al →
      al.jobCode = st.jobCode := by
  intro al hal
  unfold checkConsecutiveErrors at hal
  revert hal
  dsimp only
  split
  · split
    · split
      · split
        · intro hal
          injection hal with h1
          simp [← h1]
        · intro hal
          injection hal with h1
          simp [← h1]
      · intro hal
        injection hal with h1
        simp [← h1]
    · simp
  · split <;> simp

theorem checkMissedExecutions_alert_jobCode (sl : List CronSchedule)
    (cfg : DetectionConfig) (st : JobState) :
    ∀ al, (checkMissedExecutions sl cfg st).2 = some al →
      al.jobCode = st.jobCode := by
  intro al hal
  unfold checkMissedExecutions at hal
  revert hal
  dsimp only
  split
  · split
    · intro hal
      injection hal with h1
      simp [← h1]
    · simp
  · split <;> simp

theorem jobChecks_emitsFor (now : Int) {k : String}
    (sl : List CronSchedule) (cfg : DetectionConfig)
    (hs : ∀ s ∈ sl, s.jobCode = k) :
    ∀ c ∈ jobChecks now sl cfg, CheckEmitsFor k c := by
  intro c hc
  simp only [jobChecks, List.mem_cons, List.mem_singleton] at hc
  rcases hc with h | h | h | h | h
  · subst h
    intro st hst
    refine ⟨(checkLongRunning_frame now sl cfg st).1.trans hst, ?_⟩
    exact checkLongRunning_alert_jobCode now sl cfg st hs
  · subst h
    intro st hst
    refine ⟨(checkPendingAccumulation_frame sl cfg st).1.trans hst, ?_⟩
    intro al hal
    exact (checkPendingAccumulation_alert_jobCode sl cfg st al hal).trans hst
  · subst h
    intro st hst
    refine ⟨(checkConsecutiveErrors_frame sl cfg st).1.trans hst, ?_⟩
    intro al hal
    exact (checkConsecutiveErrors_alert_jobCode sl cfg st al hal).trans hst
  · subst h
    intro st hst
    refine ⟨(checkMissedExecutions_frame sl cfg st).1.trans hst, ?_⟩
    intro al hal
    exact (checkMissedExecutions_alert_jobCode sl cfg st al hal).trans hst
  · simp at h

theorem foldl_runCheck_jobCode (now : Int) {k : String}
    (cs : List (JobState → JobState × Option StuckCronAlert))
    (acc : JobState × List StuckCronAlert)
    (hq : ∀ c ∈ cs, CheckEmitsFor k c) (hj : acc.1.jobCode = k)
    (hacc : ∀ a ∈ acc.2, a.jobCode = k) :
    (∀ a ∈ (cs.foldl (runCheck now) acc).2, a.jobCode = k) ∧
    (cs.foldl (runCheck now) acc).1.jobCode = k := by
  induction cs generalizing acc with
  | nil => exact ⟨hacc, hj⟩
  | cons c rest ih =>
    rw [List.foldl_cons]
    have hc : CheckEmitsFor k c := hq c (by simp)
    have hrest : ∀ x ∈ rest, CheckEmitsFor k x := fun x hx => hq x (by simp [hx])
    rcases runCheck_cases now acc c with ⟨hst, hal⟩ | ⟨al, heq, _, hst, hal⟩
    · exact ih (runCheck now acc c) hrest
        (by rw [hst]; exact (hc acc.1 hj).1)
        (by rw [hal]; exact hacc)
    · refine ih (runCheck now acc c) hrest
        (by rw [hst]; exact (hc acc.1 hj).1) ?_
      rw [hal]
      intro a ha
      rcases List.mem_append.mp ha with h | h
      · exact hacc a h
      · rw [List.mem_singleton.mp h]
        exact (hc acc.1 hj).2 al heq

theorem analyzeJob_jobCode (now : Int) {k : String}
    (sl : List CronSchedule) (cfg : DetectionConfig) (st : JobState)
    (hs : ∀ s ∈ sl, s.jobCode = k) (hj : st.jobCode = k) :
    (∀ a ∈ (analyzeJob now sl cfg st).2, a.jobCode = k) ∧
    (analyzeJob now sl cfg st).1.jobCode = k := by
  have := foldl_runCheck_jobCode now (jobChecks now sl cfg)
    ({ st with lastChecked := now }, [])
    (jobChecks_emitsFor now sl cfg hs) (by simpa using hj) (by simp)
  simpa [analyzeJob] using this

theorem addToGroup_keys (acc : List (String × List CronSchedule))
    (s : CronSchedule) :
    (s.jobCode ∈ acc.map Prod.fst ∧
      (addToGroup acc s).map Prod.fst = acc.map Prod.fst) ∨
    (s.jobCode ∉ acc.map Prod.fst ∧
      (addToGroup acc s).map Prod.fst = acc.map Prod.fst ++ [s.jobCode]) := by
  induction acc with
  | nil => exact Or.inr ⟨by simp, by simp [addToGroup]⟩
  | cons p rest ih =>
    obtain ⟨k, l⟩ := p
    unfold addToGroup
    by_cases hk : k = s.jobCode
    · exact Or.inl ⟨by simp [hk], by simp [hk]⟩
    · rcases ih with ⟨hmem, hkeys⟩ | ⟨hmem, hkeys⟩
      · exact Or.inl ⟨by simp [hmem], by simp [hk, hkeys]⟩
      · refine Or.inr ⟨?_, by simp [hk, hkeys]⟩
        simp only [List.map_cons, List.mem_cons]
        rintro (h | h)
        · exact hk h.symm
        · exact hmem h

theorem addToGroup_nodup (acc : List (String × List CronSchedule))
    (s : CronSchedule) (h : (acc.map Prod.fst).Nodup) :
    ((addToGroup acc s).map Prod.fst).Nodup := by
  rcases addToGroup_keys acc s with ⟨_, hkeys⟩ | ⟨hmem, hkeys⟩
  · rw [hkeys]; exact h
  · rw [hkeys]
    exact List.Nodup.append h (List.nodup_singleton _)
      (by simpa [List.disjoint_singleton] using hmem)

theorem addToGroup_member (acc : List (String × List CronSchedule))
    (s : CronSchedule)
    (h : ∀ g ∈ acc, ∀ x ∈ g.2, x.jobCode = g.1) :
    ∀ g ∈ addToGroup acc s, ∀ x ∈ g.2, x.jobCode = g.1 := by
  induction acc with
  | nil =>
    intro g hg x hx
    simp only [addToGroup, List.mem_singleton] at hg
    subst hg
    simp only [List.mem_singleton] at hx
    subst hx
    rfl
  | cons p rest ih =>
    obtain ⟨k, l⟩ := p
    intro g hg x hx
    unfold addToGroup at hg
    by_cases hk : k = s.jobCode
    · rw [if_pos hk] at hg
      rcases List.mem_cons.mp hg with h1 | h1
      · subst h1
        rcases List.mem_append.mp hx with h2 | h2
        · exact h (k, l) (by simp) x h2
        · rw [List.mem_singleton.mp h2, hk]
      · exact h g (by simp [h1]) x hx
    · rw [if_neg hk] at hg
      rcases List.mem_cons.mp hg with h1 | h1
      · subst h1
        exact h (k, l) (by simp) x hx
      · exact ih (fun g hg => h g (by simp [hg])) g h1 x hx

theorem groupByJob_aux (ss : List CronSchedule) :
    ∀ acc : List (String × List CronSchedule),
      (acc.map Prod.fst).Nodup →
      (∀ g ∈ acc, ∀ x ∈ g.2, x.jobCode = g.1) →
      ((ss.foldl addToGroup acc).map Prod.fst).Nodup ∧
      (∀ g ∈ ss.foldl addToGroup acc, ∀ x ∈ g.2, x.jobCode = g.1) := by
  induction ss with
  | nil => exact fun acc h1 h2 => ⟨h1, h2⟩
  | cons s rest ih =>
    intro acc h1 h2
    rw [List.foldl_cons]
    exact ih (addToGroup acc s) (addToGroup_nodup acc s h1)
      (addToGroup_member acc s h2)

theorem groupByJob_nodup (ss : List CronSchedule) :
    ((groupByJob ss).map Prod.fst).Nodup :=
  (groupByJob_aux ss [] (by simp) (by simp)).1

theorem groupByJob_member (ss : List CronSchedule) :
    ∀ g ∈ groupByJob ss, ∀ x ∈ g.2, x.jobCode = g.1 :=
  (groupByJob_aux ss [] (by simp) (by simp)).2

theorem lookup_jobCode {k : String} (states : List (String × JobState))
    (hinv : ∀ p ∈ states, p.2.jobCode = p.1) (v : JobState)
    (h : states.lookup k = some v) : v.jobCode = k := by
  induction states with
  | nil => simp [List.lookup] at h
  | cons p rest ih =>
    obtain ⟨a, b⟩ := p
    simp only [List.lookup] at h
    rcases hk : (k == a) with _ | _
    · rw [hk] at h
      exact ih (fun p hp => hinv p (by simp [hp])) h
    · rw [hk] at h
      have hb := hinv (a, b) (by simp)
      cases h
      exact hb.trans (by simpa using (eq_of_beq hk).symm)

theorem setState_inv {k : String} (states : List (String × JobState))
    (v : JobState) (hinv : ∀ p ∈ states, p.2.jobCode = p.1)
    (hv : v.jobCode = k) :
    ∀ p ∈ setState states k v, p.2.jobCode = p.1 := by
  induction states with
  | nil =>
    intro p hp
    simp only [setState, List.mem_singleton] at hp
    subst hp
    exact hv
  | cons q rest ih =>
    obtain ⟨a, b⟩ := q
    intro p hp
    unfold setState at hp
    by_cases hk : a = k
    · rw [if_pos hk] at hp
      rcases List.mem_cons.mp hp with h | h
      · subst h; exact hv
      · exact hinv p (by simp [h])
    · rw [if_neg hk] at hp
      rcases List.mem_cons.mp hp with h | h
      · subst h; exact hinv (a, b) (by simp)
      · exact ih (fun p hp => hinv p (by simp [hp])) p h

theorem analyze_fold_count (now : Int) (cfgFor : String → DetectionConfig)
    (j : String) (gs : List (String × List CronSchedule)) :
    ∀ acc : List (String × JobState) × List StuckCronAlert,
      (∀ p ∈ acc.1, p.2.jobCode = p.1) →
      (gs.map Prod.fst).Nodup →
      (∀ g ∈ gs, ∀ x ∈ g.2, x.jobCode = g.1) →
      (gs.foldl (analyzeStep now cfgFor) acc).2.countP
          (fun a => a.jobCode == j) ≤
        acc.2.countP (fun a => a.jobCode == j) +
          (if j ∈ gs.map Prod.fst then 1 else 0) := by
  induction gs with
  | nil =>
    intro acc _ _ _
    simp
  | cons g rest ih =>
    intro acc hinv hnodup hmem
    rw [List.foldl_cons]
    have hst : ((acc.1.lookup g.1).getD (newJobState g.1)).jobCode = g.1 := by
      rcases hlk : acc.1.lookup g.1 with _ | v
      · simp [newJobState]
      · simpa using lookup_jobCode acc.1 hinv v hlk
    have hgm : ∀ x ∈ g.2, x.jobCode = g.1 := hmem g (by simp)
    have hrec := analyzeJob_jobCode now g.2 (cfgFor g.1)
      ((acc.1.lookup g.1).getD (newJobState g.1)) hgm hst
    have hlen := analyzeJob_len now g.2 (cfgFor g.1)
      ((acc.1.lookup g.1).getD (newJobState g.1))
    have hinv2 : ∀ p ∈ (analyzeStep now cfgFor acc g).1,
        p.2.jobCode = p.1 :=
      setState_inv acc.1 _ hinv hrec.2
    have hcount2 : (analyzeStep now cfgFor acc g).2.countP
        (fun a => a.jobCode == j) =
        acc.2.countP (fun a => a.jobCode == j) +
        ((analyzeJob now g.2 (cfgFor g.1)
          ((acc.1.lookup g.1).getD (newJobState g.1))).2.countP
            (fun a => a.jobCode == j)) := by
      simp [analyzeStep, List.countP_append]
    have hgb : (analyzeJob now g.2 (cfgFor g.1)
        ((acc.1.lookup g.1).getD (newJobState g.1))).2.countP
          (fun a => a.jobCode == j) ≤ (if g.1 = j then 1 else 0) := by
      by_cases hgj : g.1 = j
      · rw [if_pos hgj]
        exact le_trans (List.countP_le_length _) hlen
      · rw [if_neg hgj]
        have : ∀ a ∈ (analyzeJob now g.2 (cfgFor g.1)
            ((acc.1.lookup g.1).getD (newJobState g.1))).2,
            ¬ (a.jobCode == j) = true := by
          intro a ha hbeq
          exact hgj ((hrec.1 a ha).symm.trans (by simpa using hbeq))
        simp [List.countP_eq_zero.mpr this]
    have hnd : (g.1 :: rest.map Prod.fst).Nodup := by simpa using hnodup
    have hih := ih (analyzeStep now cfgFor acc g) hinv2
      ((List.nodup_cons.mp hnd).2)
      (fun g hg => hmem g (by simp [hg]))
    rw [hcount2] at hih
    by_cases hgj : g.1 = j
    · have hnot : j ∉ rest.map Prod.fst := by
        rw [← hgj]
        exact (List.nodup_cons.mp hnd).1
      rw [if_neg hnot] at hih
      have hmem2 : j ∈ (g :: rest).map Prod.fst := by simp [← hgj]
      rw [if_pos hmem2]
      rw [if_pos hgj] at hgb
      omega
    · by_cases hjr : j ∈ rest.map Prod.fst
      · rw [if_pos hjr] at hih
        have hmem2 : j ∈ (g :: rest).map Prod.fst := by simp [hjr]
        rw [if_pos hmem2]
        rw [if_neg hgj] at hgb
        omega
      · rw [if_neg hjr] at hih
        have hmem2 : j ∉ (g :: rest).map Prod.fst := by
          simp only [List.map_cons, List.mem_cons]
          rintro (h | h)
          · exact hgj h.symm
          · exact hjr h
        rw [if_neg hmem2]
        rw [if_neg hgj] at hgb
        omega

/-- C6: per call to Analyze at most one alert per job appears in the
returned list; an alert for a job is surfaced only when at least five
minutes have elapsed since the job's last_alert_time; and when a single
alert is surfaced it is the first alert produced by the checks in the
fixed order long-running, pending, errors, missed. -/
theorem Analyze_one_alert_per_job_per_window
    (now : Int) (cfgFor : String → DetectionConfig)
    (ss : List CronSchedule) (states : List (String × JobState))
    (j : String) (sl : List CronSchedule) (cfg : DetectionConfig)
    (st : JobState)
    (hinv : ∀ p ∈ states, p.2.jobCode = p.1) :
    (Analyze now cfgFor ss states).2.countP (fun a => a.jobCode == j) ≤ 1 ∧
    ((analyzeJob now sl cfg st).2 ≠ [] →
      fiveMinutes ≤ now - st.lastAlertTime) ∧
    (∀ a, (analyzeJob now sl cfg st).2 = [a] →
      firstAlert (jobChecks now sl cfg) { st with lastChecked := now } =
        some a) := by
  refine ⟨?_, analyzeJob_elapsed now sl cfg st, ?_⟩
  · have hb := analyze_fold_count now cfgFor j (groupByJob ss) (states, [])
      hinv (groupByJob_nodup ss) (groupByJob_member ss)
    have h2 : (Analyze now cfgFor ss states).2 =
        ((groupByJob ss).foldl (analyzeStep now cfgFor) (states, [])).2 := rfl
    rw [h2]
    refine le_trans hb ?_
    simp only [List.countP_nil, Nat.zero_add]
    split <;> simp
  · intro a ha
    have hne : (analyzeJob now sl cfg st).2 ≠ [] := by rw [ha]; simp
    have hel := analyzeJob_elapsed now sl cfg st hne
    have hfa := analyzeJob_first now sl cfg st hel
    rw [ha] at hfa
    rcases hopt : firstAlert (jobChecks now sl cfg)
        { st with lastChecked := now } with _ | b
    · rw [hopt] at hfa
      simp at hfa
    · rw [hopt] at hfa
      simp only [Option.toList_some] at hfa
      rw [List.cons.injEq] at hfa
      rw [hfa.1]

theorem Analyze_one_alert_per_job_per_window_witness :
    (∀ p ∈ ([] : List (String × JobState)), p.2.jobCode = p.1) ∧
    (Analyze tnow (fun _ => baseCfg) [mkSched "a" "pending" 5 none]
      []).2.countP (fun a => a.jobCode == "a") ≤ 1 := by
  have h := Analyze_one_alert_per_job_per_window tnow (fun _ => baseCfg)
    [mkSched "a" "pending" 5 none] [] "a" [] baseCfg (newJobState "a")
    (by simp)
  exact ⟨by simp, h.1⟩

/-- C7: if either scheduler-liveness count query fails, the scheduler
check yields no alert and leaves the scheduler state untouched. -/
theorem CheckSchedulerHealth_query_error (now : Int)
    (cfg : DetectionConfig) (rc uc : Except Unit Int)
    (st : SchedulerState)
    (h : (∃ e, rc = .error e) ∨ (∃ e, uc = .error e)) :
    CheckSchedulerHealth now cfg rc uc st = (st, none) := by
  rcases h with ⟨e, he⟩ | ⟨e, he⟩
  · subst he
    rfl
  · subst he
    cases rc <;> rfl

theorem CheckSchedulerHealth_query_error_witness :
    ((∃ e, (Except.error () : Except Unit Int) = .error e) ∨
      (∃ e, (Except.ok 5 : Except Unit Int) = .error e)) ∧
    CheckSchedulerHealth tnow baseCfg (Except.error ()) (Except.ok 5)
      { consecutiveInactive := 3, lastAlertTime := 7 } =
      ({ consecutiveInactive := 3, lastAlertTime := 7 }, none) := by
  refine ⟨Or.inl ⟨(), rfl⟩, ?_⟩
  exact CheckSchedulerHealth_query_error tnow baseCfg (Except.error ())
    (Except.ok 5) { consecutiveInactive := 3, lastAlertTime := 7 }
    (Or.inl ⟨(), rfl⟩)

theorem isJobHealthy_frame (now : Int) (sl : List CronSchedule)
    (cfg : DetectionConfig) (st : JobState) :
    FrameEq (isJobHealthy now sl cfg st).1 st := by
  unfold isJobHealthy
  dsimp only
  split
  · exact checkLongRunning_frame now sl cfg st
  · split
    · exact frameEq_trans (checkPendingAccumulation_frame sl cfg _)
        (checkLongRunning_frame now sl cfg st)
    · split
      · exact frameEq_trans (checkConsecutiveErrors_frame sl cfg _)
          (frameEq_trans (checkPendingAccumulation_frame sl cfg _)
            (checkLongRunning_frame now sl cfg st))
      · split
        · exact frameEq_trans (checkMissedExecutions_frame sl cfg _)
            (frameEq_trans (checkConsecutiveErrors_frame sl cfg _)
              (frameEq_trans (checkPendingAccumulation_frame sl cfg _)
                (checkLongRunning_frame now sl cfg st)))
        · exact frameEq_trans (checkMissedExecutions_frame sl cfg _)
            (frameEq_trans (checkConsecutiveErrors_frame sl cfg _)
              (frameEq_trans (checkPendingAccumulation_frame sl cfg _)
                (checkLongRunning_frame now sl cfg st)))

theorem getActualAlertReason_frame (now : Int) (sl : List CronSchedule)
    (cfg : DetectionConfig) (st : JobState) :
    FrameEq (getActualAlertReason now sl cfg st).1 st := by
  unfold getActualAlertReason
  dsimp only
  split
  · exact checkLongRunning_frame now sl cfg st
  · split
    · exact frameEq_trans (checkPendingAccumulation_frame sl cfg _)
        (checkLongRunning_frame now sl cfg st)
    · split
      · exact frameEq_trans (checkConsecutiveErrors_frame sl cfg _)
          (frameEq_trans (checkPendingAccumulation_frame sl cfg _)
            (checkLongRunning_frame now sl cfg st))
      · split
        · exact frameEq_trans (checkMissedExecutions_frame sl cfg _)
            (frameEq_trans (checkConsecutiveErrors_frame sl cfg _)
              (frameEq_trans (checkPendingAccumulation_frame sl cfg _)
                (checkLongRunning_frame now sl cfg st)))
        · exact frameEq_trans (checkMissedExecutions_frame sl cfg _)
            (frameEq_trans (checkConsecutiveErrors_frame sl cfg _)
              (frameEq_trans (checkPendingAccumulation_frame sl cfg _)
                (checkLongRunning_frame now sl cfg st)))

/-- C8: on an alerting to not_alerting flip the transition tracker emits
exactly one transition whose stuck_duration is now minus the stored
stuck_since, whose reason is empty and whose consecutive_stuck is 0, and
it clears stuck_since and stores not_alerting. -/
theorem detectJob_recovery (now : Int) (j : String)
    (sl : List CronSchedule) (cfg : DetectionConfig) (st : JobState)
    (hstate : st.lastKnownState = "alerting")
    (hhealthy : (isJobHealthy now sl cfg st).2 = true) :
    ∃ t : StateTransition,
      (detectJob now j sl cfg st).2 = [t] ∧
      t.fromState = "alerting" ∧ t.toState = "not_alerting" ∧
      t.stuckDuration = now - st.stuckSince ∧ t.reason = "" ∧
      t.consecutiveStuck = 0 ∧
      (detectJob now j sl cfg st).1.lastKnownState = "not_alerting" ∧
      (detectJob now j sl cfg st).1.stuckSince = 0 := by
  have hf := isJobHealthy_frame now sl cfg st
  have hlks : (isJobHealthy now sl cfg st).1.lastKnownState = "alerting" :=
    hf.2.2.2.2.2.1.trans hstate
  have hss : (isJobHealthy now sl cfg st).1.stuckSince = st.stuckSince :=
    hf.2.2.2.2.2.2
  unfold detectJob
  dsimp only
  simp only [hhealthy, hlks, Bool.not_true, Bool.false_and,
    Bool.false_eq_true, if_false]
  rw [if_neg (show ¬("alerting" : String) = "" by decide)]
  simp only [hlks, beq_self_eq_true, if_true]
  rw [hss]
  exact ⟨_, rfl, rfl, rfl, rfl, rfl, rfl, rfl, rfl⟩

theorem detectJob_recovery_witness :
    ({ newJobState "a" with lastKnownState := "alerting", stuckSince := 55 } : JobState).lastKnownState = "alerting" ∧
    (isJobHealthy tnow [mkSched "a" "success" 5 (some 9)] baseCfg
      { newJobState "a" with lastKnownState := "alerting", stuckSince := 55 }).2 = true ∧
    ∃ t : StateTransition,
      (detectJob tnow "a" [mkSched "a" "success" 5 (some 9)] baseCfg
        { newJobState "a" with lastKnownState := "alerting", stuckSince := 55 }).2 = [t] ∧
      t.fromState = "alerting" ∧ t.toState = "not_alerting" ∧
      t.stuckDuration = tnow -
        ({ newJobState "a" with lastKnownState := "alerting", stuckSince := 55 } : JobState).stuckSince ∧
      t.reason = "" ∧ t.consecutiveStuck = 0 ∧
      (detectJob tnow "a" [mkSched "a" "success" 5 (some 9)] baseCfg
        { newJobState "a" with lastKnownState := "alerting", stuckSince := 55 }).1.lastKnownState = "not_alerting" ∧
      (detectJob tnow "a" [mkSched "a" "success" 5 (some 9)] baseCfg
        { newJobState "a" with lastKnownState := "alerting", stuckSince := 55 }).1.stuckSince = 0 :=
  ⟨rfl, by decide,
    detectJob_recovery tnow "a" [mkSched "a" "success" 5 (some 9)] baseCfg
      { newJobState "a" with lastKnownState := "alerting", stuckSince := 55 }
      rfl (by decide)⟩

/-- C2: the health classification used by the transition tracker is not
read-only: on a batch holding one over-long running record, isJobHealthy
classifies the job as healthy (the debounce depth of 2 is not yet
reached) yet increments the job's consecutive_stuck from 0 to 1. -/
theorem isJobHealthy_mutates_consecutiveStuck :
    (isJobHealthy tnow
      [mkSched "a" "running" 5 (some (tnow - 2000000000000))] baseCfg
      (newJobState "a")).2 = true ∧
    (isJobHealthy tnow
      [mkSched "a" "running" 5 (some (tnow - 2000000000000))] baseCfg
      (newJobState "a")).1.consecutiveStuck = 1 ∧
    (newJobState "a").consecutiveStuck = 0 := by
  refine ⟨by decide, by decide, rfl⟩

/-- C4 (counterexample): the long-running heuristic does not stop at the
first running record: a batch whose first running record is within the
threshold resets the counter when alone, yet increments it when a second,
over-long running record follows. -/
theorem checkLongRunning_second_record_matters :
    (checkLongRunning tnow [mkSched "a" "running" 5 (some (tnow - 10))]
      baseCfg (newJobState "a")).1.consecutiveStuck = 0 ∧
    (checkLongRunning tnow
      [mkSched "a" "running" 5 (some (tnow - 10)),
       mkSched "a" "running" 5 (some (tnow - 2000000000000))]
      baseCfg (newJobState "a")).1.consecutiveStuck = 1 := by
  refine ⟨by decide, by decide⟩

theorem checkLongRunning_find_spec (now : Int)
    (sl : List CronSchedule) (cfg : DetectionConfig) (st : JobState) :
    checkLongRunning now sl cfg st = longRunningSpec now sl cfg st := by
  induction sl generalizing st with
  | nil => rfl
  | cons s rest ih =>
    unfold checkLongRunning longRunningSpec
    by_cases h1 : s.status = "running"
    · rw [if_neg (by simp [h1])]
      rcases h2 : s.executedAt with _ | t
      · rw [List.find?_cons_of_neg _ (by simp [h2])]
        exact (ih st).trans (by unfold longRunningSpec; rfl)
      · by_cases h3 : now - t > cfg.maxRunningTime
        · dsimp only
          rw [if_pos h3]
          rw [List.find?_cons_of_pos _ (by simp [h1, h2, h3])]
          simp only [h2, Option.getD_some]
        · rw [List.find?_cons_of_neg _ (by simp [h1, h2, h3])]
          dsimp only
          rw [if_neg h3]
          exact (ih st).trans (by unfold longRunningSpec; rfl)
    · rw [if_pos (by simp [h1])]
      rw [List.find?_cons_of_neg _ (by simp [h1])]
      exact (ih st).trans (by unfold longRunningSpec; rfl)

/-- C4 (amended): the long-running heuristic scans for the first record
that is running, has a start time, and exceeds max_running_time; that
record alone decides between increment-and-maybe-alert and the reset of
consecutive_stuck to 0, so running records before it (within threshold)
are skipped rather than stopping the scan. -/
theorem checkLongRunning_eq_longRunningSpec (now : Int)
    (sl : List CronSchedule) (cfg : DetectionConfig) (st : JobState) :
    checkLongRunning now sl cfg st = longRunningSpec now sl cfg st :=
  checkLongRunning_find_spec now sl cfg st

theorem scanErrors_count (sl : List CronSchedule) (n : Nat) :
    (scanErrors sl n).1 =
      (((sl.take n).takeWhile (fun s => s.status != "success")).countP
        (fun s => s.status == "error") : Nat) := by
  induction sl generalizing n with
  | nil => cases n <;> simp [scanErrors]
  | cons s rest ih =>
    cases n with
    | zero => simp [scanErrors]
    | succ m =>
      unfold scanErrors
      by_cases h1 : s.status = "error"
      · rw [if_pos h1]
        have hr := ih m
        simp [List.take_succ_cons, List.takeWhile_cons, h1, hr]
      · rw [if_neg h1]
        by_cases h2 : s.status = "success"
        · rw [if_pos h2]
          simp [List.take_succ_cons, List.takeWhile_cons, h2]
        · rw [if_neg h2]
          have hr := ih m
          simp [List.take_succ_cons, List.takeWhile_cons, h1, h2, hr]

/-- C5 (counterexample): a non-error, non-success record between two
errors is skipped rather than ending the counted streak: on the batch
error, pending, error with threshold 2 the code counts 2 errors, while
the run of consecutive errors at the front of the list has length 1. -/
theorem errorCount_not_prefix_run :
    (checkConsecutiveErrors
      [mkSched "a" "error" 5 none, mkSched "a" "pending" 5 none,
       mkSched "a" "error" 5 none]
      { baseCfg with consecutiveErrors := 2 }
      (newJobState "a")).1.errorStreak = 2 ∧
    consecutiveErrorPrefixLen
      [mkSched "a" "error" 5 none, mkSched "a" "pending" 5 none,
       mkSched "a" "error" 5 none] = 1 ∧
    (2 : Int) ≠ 1 := ⟨by decide, by decide, by decide⟩

/-- C5 (amended): the counted error streak equals the number of
status=error records among the first 2 x consecutive_errors records up to
(and not including) the first status=success record; a success ends the
count, any other status is skipped without ending it; the shared counter
increments exactly when that count reaches the threshold. -/
theorem checkConsecutiveErrors_count_spec (sl : List CronSchedule)
    (cfg : DetectionConfig) (st : JobState) :
    (scanErrors sl (cfg.consecutiveErrors * 2).toNat).1 =
      specErrorCount sl cfg.consecutiveErrors ∧
    (checkConsecutiveErrors sl cfg st).1.consecutiveStuck =
      (if specErrorCount sl cfg.consecutiveErrors ≥ cfg.consecutiveErrors
        then st.consecutiveStuck + 1
        else if st.lastStatus = "consecutive_errors" then 0
        else st.consecutiveStuck) := by
  have hc : (scanErrors sl (cfg.consecutiveErrors * 2).toNat).1 =
      specErrorCount sl cfg.consecutiveErrors :=
    scanErrors_count sl (cfg.consecutiveErrors * 2).toNat
  refine ⟨hc, ?_⟩
  unfold checkConsecutiveErrors
  dsimp only
  rw [hc]
  by_cases hge : specErrorCount sl cfg.consecutiveErrors ≥
      cfg.consecutiveErrors
  · rw [if_pos hge, if_pos hge]
    split
    · split
      · split <;> rfl
      · rfl
    · rfl
  · rw [if_neg hge, if_neg hge]
    by_cases hls : st.lastStatus = "consecutive_errors"
    · rw [if_pos hls]
      rw [if_pos (by simpa using hls)]
    · rw [if_neg hls]
      rw [if_neg (by simpa using hls)]

theorem checkLongRunning_cs_le (now : Int) (sl : List CronSchedule)
    (cfg : DetectionConfig) (st : JobState)
    (h0 : 0 ≤ st.consecutiveStuck) :
    (checkLongRunning now sl cfg st).1.consecutiveStuck ≤
      st.consecutiveStuck + 1 ∧
    0 ≤ (checkLongRunning now sl cfg st).1.consecutiveStuck := by
  rcases checkLongRunning_cs now sl cfg st with h | h <;> omega

theorem checkPendingAccumulation_cs_le (sl : List CronSchedule)
    (cfg : DetectionConfig) (st : JobState)
    (h0 : 0 ≤ st.consecutiveStuck) :
    (checkPendingAccumulation sl cfg st).1.consecutiveStuck ≤
      st.consecutiveStuck + 1 ∧
    0 ≤ (checkPendingAccumulation sl cfg st).1.consecutiveStuck := by
  rcases checkPendingAccumulation_cs sl cfg st with h | h | h <;> omega

theorem checkConsecutiveErrors_cs_le (sl : List CronSchedule)
    (cfg : DetectionConfig) (st : JobState)
    (h0 : 0 ≤ st.consecutiveStuck) :
    (checkConsecutiveErrors sl cfg st).1.consecutiveStuck ≤
      st.consecutiveStuck + 1 ∧
    0 ≤ (checkConsecutiveErrors sl cfg st).1.consecutiveStuck := by
  rcases checkConsecutiveErrors_cs sl cfg st with h | h | h <;> omega

theorem checkMissedExecutions_cs_le (sl : List CronSchedule)
    (cfg : DetectionConfig) (st : JobState)
    (h0 : 0 ≤ st.consecutiveStuck) :
    (checkMissedExecutions sl cfg st).1.consecutiveStuck ≤
      st.consecutiveStuck + 1 ∧
    0 ≤ (checkMissedExecutions sl cfg st).1.consecutiveStuck := by
  rcases checkMissedExecutions_cs sl cfg st with h | h | h <;> omega

theorem foldl_runCheck_cs (now : Int)
    (cs : List (JobState → JobState × Option StuckCronAlert))
    (acc : JobState × List StuckCronAlert)
    (hb : ∀ c ∈ cs, ∀ s : JobState, 0 ≤ s.consecutiveStuck →
      ((c s).1.consecutiveStuck ≤ s.consecutiveStuck + 1 ∧
        0 ≤ (c s).1.consecutiveStuck))
    (h0 : 0 ≤ acc.1.consecutiveStuck) :
    (cs.foldl (runCheck now) acc).1.consecutiveStuck ≤
      acc.1.consecutiveStuck + cs.length ∧
    0 ≤ (cs.foldl (runCheck now) acc).1.consecutiveStuck := by
  induction cs generalizing acc with
  | nil => exact ⟨by simp, h0⟩
  | cons c rest ih =>
    rw [List.foldl_cons]
    have hstep := hb c (by simp) acc.1 h0
    have hcs : (runCheck now acc c).1.consecutiveStuck =
        (c acc.1).1.consecutiveStuck := by
      rcases runCheck_cases now acc c with ⟨hst, _⟩ | ⟨_, _, _, hst, _⟩ <;>
        rw [hst]
    have hr := ih (runCheck now acc c)
      (fun c h => hb c (by simp [h])) (by rw [hcs]; exact hstep.2)
    rw [hcs] at hr
    simp only [List.length_cons]
    omega

theorem analyzeJob_cs_bound (now : Int) (sl : List CronSchedule)
    (cfg : DetectionConfig) (st : JobState)
    (h0 : 0 ≤ st.consecutiveStuck) :
    (analyzeJob now sl cfg st).1.consecutiveStuck ≤
      st.consecutiveStuck + 4 ∧
    0 ≤ (analyzeJob now sl cfg st).1.consecutiveStuck := by
  have hb : ∀ c ∈ jobChecks now sl cfg, ∀ s : JobState,
      0 ≤ s.consecutiveStuck →
      ((c s).1.consecutiveStuck ≤ s.consecutiveStuck + 1 ∧
        0 ≤ (c s).1.consecutiveStuck) := by
    intro c hc
    simp only [jobChecks, List.mem_cons, List.mem_singleton] at hc
    rcases hc with h | h | h | h | h
    · exact h ▸ fun s hs => checkLongRunning_cs_le now sl cfg s hs
    · exact h ▸ fun s hs => checkPendingAccumulation_cs_le sl cfg s hs
    · exact h ▸ fun s hs => checkConsecutiveErrors_cs_le sl cfg s hs
    · exact h ▸ fun s hs => checkMissedExecutions_cs_le sl cfg s hs
    · simp at h
  have := foldl_runCheck_cs now (jobChecks now sl cfg)
    ({ st with lastChecked := now }, []) hb (by simpa using h0)
  simpa [analyzeJob, jobChecks] using this

theorem isJobHealthy_cs (now : Int) (sl : List CronSchedule)
    (cfg : DetectionConfig) (st : JobState)
    (h0 : 0 ≤ st.consecutiveStuck) :
    (isJobHealthy now sl cfg st).1.consecutiveStuck ≤
      st.consecutiveStuck + 4 ∧
    0 ≤ (isJobHealthy now sl cfg st).1.consecutiveStuck := by
  have b1 := checkLongRunning_cs_le now sl cfg st h0
  have b2 := checkPendingAccumulation_cs_le sl cfg
    (checkLongRunning now sl cfg st).1 b1.2
  have b3 := checkConsecutiveErrors_cs_le sl cfg
    (checkPendingAccumulation sl cfg (checkLongRunning now sl cfg st).1).1
    b2.2
  have b4 := checkMissedExecutions_cs_le sl cfg
    (checkConsecutiveErrors sl cfg
      (checkPendingAccumulation sl cfg
        (checkLongRunning now sl cfg st).1).1).1 b3.2
  unfold isJobHealthy
  dsimp only
  split
  · dsimp only
    omega
  · split
    · dsimp only
      omega
    · split
      · dsimp only
        omega
      · split
        · dsimp only
          omega
        · dsimp only
          omega

theorem getActualAlertReason_cs (now : Int) (sl : List CronSchedule)
    (cfg : DetectionConfig) (st : JobState)
    (h0 : 0 ≤ st.consecutiveStuck) :
    (getActualAlertReason now sl cfg st).1.consecutiveStuck ≤
      st.consecutiveStuck + 4 ∧
    0 ≤ (getActualAlertReason now sl cfg st).1.consecutiveStuck := by
  have b1 := checkLongRunning_cs_le now sl cfg st h0
  have b2 := checkPendingAccumulation_cs_le sl cfg
    (checkLongRunning now sl cfg st).1 b1.2
  have b3 := checkConsecutiveErrors_cs_le sl cfg
    (checkPendingAccumulation sl cfg (checkLongRunning now sl cfg st).1).1
    b2.2
  have b4 := checkMissedExecutions_cs_le sl cfg
    (checkConsecutiveErrors sl cfg
      (checkPendingAccumulation sl cfg
        (checkLongRunning now sl cfg st).1).1).1 b3.2
  unfold getActualAlertReason
  dsimp only
  split
  · dsimp only
    omega
  · split
    · dsimp only
      omega
    · split
      · dsimp only
        omega
      · split
        · dsimp only
          omega
        · dsimp only
          omega

theorem detectJob_cs_bound (now : Int) (j : String)
    (sl : List CronSchedule) (cfg : DetectionConfig) (st : JobState)
    (h0 : 0 ≤ st.consecutiveStuck) :
    (detectJob now j sl cfg st).1.consecutiveStuck ≤
      st.consecutiveStuck + 8 := by
  have hh := isJobHealthy_cs now sl cfg st h0
  unfold detectJob
  dsimp only
  split <;> split <;> split <;> dsimp only <;> try omega
  all_goals
    refine le_trans (getActualAlertReason_cs now sl cfg _ ?_).1 ?_ <;>
      dsimp only
  all_goals first
    | exact hh.2
    | omega

/-- C1 (counterexample): a single call to Analyze can raise a job's
consecutive_stuck by 2 (pending and missed heuristics both increment it
in the same poll), so after one poll since its state was created the
counter already exceeds the number of polls. -/
theorem consecutiveStuck_exceeds_poll_count :
    ((Analyze tnow
      (fun _ => { baseCfg with maxPendingCount := 0, maxMissedCount := 2, thresholdChecks := 5 })
      [mkSched "a" "pending" 5 none, mkSched "a" "missed" 5 none,
       mkSched "a" "missed" 5 none] []).1.lookup "a").map
        (fun s => s.consecutiveStuck) = some 2 ∧
    ¬ ((2 : Int) ≤ 1) := ⟨by decide, by decide⟩

/-- C1 (amended): each call to the per-job evaluation of Analyze raises
consecutive_stuck by at most 4 (one per heuristic) rather than at most 1,
and a call to the per-job transition detection raises it by at most a
further 8 (the four heuristics re-run by the health check and, on a flip
into alerting, re-run again for the reason); the counter stays
non-negative. -/
theorem consecutiveStuck_per_poll_bound (now : Int) (j : String)
    (sl : List CronSchedule) (cfg : DetectionConfig) (st : JobState)
    (h0 : 0 ≤ st.consecutiveStuck) :
    (analyzeJob now sl cfg st).1.consecutiveStuck ≤
      st.consecutiveStuck + 4 ∧
    0 ≤ (analyzeJob now sl cfg st).1.consecutiveStuck ∧
    (detectJob now j sl cfg st).1.consecutiveStuck ≤
      st.consecutiveStuck + 8 := by
  have ha := analyzeJob_cs_bound now sl cfg st h0
  exact ⟨ha.1, ha.2, detectJob_cs_bound now j sl cfg st h0⟩

theorem consecutiveStuck_per_poll_bound_witness :
    0 ≤ (newJobState "a").consecutiveStuck ∧
    (analyzeJob tnow [mkSched "a" "pending" 5 none] baseCfg
      (newJobState "a")).1.consecutiveStuck ≤
      (newJobState "a").consecutiveStuck + 4 := by
  have h := consecutiveStuck_per_poll_bound tnow "a"
    [mkSched "a" "pending" 5 none] baseCfg (newJobState "a") (by decide)
  exact ⟨by decide, h.1⟩

/-- C3 (counterexample): a job observed for the first time in this poll
(state created by Analyze in the same poll) that is already unhealthy on
first sight DOES receive a not_alerting to alerting transition from
DetectStateTransitions in that same poll. -/
theorem first_poll_unhealthy_emits_transition :
    ((DetectStateTransitions tnow
        (fun _ => { baseCfg with thresholdChecks := 1, maxPendingCount := 0 })
        [mkSched "a" "pending" 5 none]
        (Analyze tnow
          (fun _ => { baseCfg with thresholdChecks := 1, maxPendingCount := 0 })
          [mkSched "a" "pending" 5 none] []).1).2.map
      (fun t => (t.cronCode, t.fromState, t.toState))) =
      [("a", "not_alerting", "alerting")] := by decide

/-- C3 (amended): for a job whose stored health state is still empty
(as on first observation), the transition tracker initialises it to
not_alerting and then treats the very first evaluation as a flip: it
emits nothing when the job is healthy, and emits a not_alerting to
alerting transition in that same poll when the job is unhealthy. -/
theorem detectJob_first_observation (now : Int) (j : String)
    (sl : List CronSchedule) (cfg : DetectionConfig) (st : JobState)
    (h : st.lastKnownState = "") :
    ((isJobHealthy now sl cfg st).2 = true →
      (detectJob now j sl cfg st).2 = []) ∧
    ((isJobHealthy now sl cfg st).2 = false →
      ∃ t : StateTransition, (detectJob now j sl cfg st).2 = [t] ∧
        t.fromState = "not_alerting" ∧ t.toState = "alerting") := by
  have hf := isJobHealthy_frame now sl cfg st
  have hlks : (isJobHealthy now sl cfg st).1.lastKnownState = "" :=
    hf.2.2.2.2.2.1.trans h
  constructor
  · intro hh
    unfold detectJob
    dsimp only
    simp only [hh, hlks, Bool.not_true, Bool.false_and,
      Bool.false_eq_true, if_false, eq_self_iff_true, ite_true]
    simp
  · intro hh
    unfold detectJob
    dsimp only
    simp only [hh, hlks, Bool.not_false, Bool.true_and, Bool.false_and,
      Bool.false_eq_true, if_false, eq_self_iff_true, ite_true,
      beq_self_eq_true]
    exact ⟨_, rfl, rfl, rfl⟩

theorem detectJob_first_observation_witness :
    (newJobState "a").lastKnownState = "" ∧
    ((isJobHealthy tnow [mkSched "a" "success" 5 none] baseCfg
        (newJobState "a")).2 = true →
      (detectJob tnow "a" [mkSched "a" "success" 5 none] baseCfg
        (newJobState "a")).2 = []) := by
  have h := detectJob_first_observation tnow "a"
    [mkSched "a" "success" 5 none] baseCfg (newJobState "a") rfl
  exact ⟨rfl, h.1⟩

theorem runCheck_none (now : Int) (acc : JobState × List StuckCronAlert)
    (c : JobState → JobState × Option StuckCronAlert)
    (h : (c acc.1).2 = none) :
    runCheck now acc c = ((c acc.1).1, acc.2) := by
  unfold runCheck
  dsimp only
  rw [h]

theorem foldl_runCheck_all_none (now : Int)
    (cs : List (JobState → JobState × Option StuckCronAlert)) :
    ∀ acc : JobState × List StuckCronAlert,
      (∀ c ∈ cs, ∀ s : JobState, (c s).2 = none) →
      (cs.foldl (runCheck now) acc).2 = acc.2 := by
  induction cs with
  | nil => intro acc _; rfl
  | cons c rest ih =>
    intro acc h
    rw [List.foldl_cons, runCheck_none now acc c (h c (by simp) acc.1)]
    exact ih _ (fun c hc s => h c (by simp [hc]) s)

theorem checkLongRunning_none_of_no_overrun (now : Int)
    (sl : List CronSchedule) (cfg : DetectionConfig)
    (hr : ∀ s ∈ sl, s.status = "running" → ∀ t, s.executedAt = some t →
      now - t ≤ cfg.maxRunningTime) :
    ∀ st : JobState,
      checkLongRunning now sl cfg st =
        ({ st with consecutiveStuck := 0 }, none) := by
  intro st
  have hfind : sl.find? (fun s =>
      s.status == "running" && s.executedAt.isSome &&
      decide (now - s.executedAt.getD 0 > cfg.maxRunningTime)) = none := by
    rw [List.find?_eq_none]
    intro x hx
    by_cases h1 : x.status = "running"
    · rcases h2 : x.executedAt with _ | t
      · simp [h2]
      · have := hr x hx h1 t h2
        simp [h1, h2]
        omega
    · simp [h1]
  rw [checkLongRunning_find_spec]
  unfold longRunningSpec
  rw [hfind]

theorem checkPendingAccumulation_none_of_no_pending
    (sl : List CronSchedule) (cfg : DetectionConfig)
    (hp : ∀ s ∈ sl, s.status ≠ "pending")
    (hc : 0 < cfg.maxPendingCount) :
    ∀ st : JobState, (checkPendingAccumulation sl cfg st).2 = none := by
  intro st
  have hcount : sl.countP (fun s => s.status == "pending") = 0 := by
    rw [List.countP_eq_zero]
    intro x hx
    simp [hp x hx]
  unfold checkPendingAccumulation
  dsimp only
  rw [hcount]
  rw [if_neg (by simpa using by omega : ¬ ((0 : Nat) : Int) > cfg.maxPendingCount)]
  split <;> rfl

theorem specErrorCount_zero_of_no_errors (sl : List CronSchedule)
    (ce : Int) (he : ∀ s ∈ sl, s.status ≠ "error") :
    specErrorCount sl ce = 0 := by
  unfold specErrorCount
  have : ((sl.take (ce * 2).toNat).takeWhile
      (fun s => s.status != "success")).countP
      (fun s => s.status == "error") = 0 := by
    rw [List.countP_eq_zero]
    intro x hx
    have hx1 : x ∈ sl.take (ce * 2).toNat := (List.takeWhile_sublist _).mem hx
    have hx2 : x ∈ sl := List.mem_of_mem_take hx1
    simp [he x hx2]
  rw [this]
  rfl

theorem checkConsecutiveErrors_none_of_no_errors
    (sl : List CronSchedule) (cfg : DetectionConfig)
    (he : ∀ s ∈ sl, s.status ≠ "error")
    (hc : 0 < cfg.consecutiveErrors) :
    ∀ st : JobState, (checkConsecutiveErrors sl cfg st).2 = none := by
  intro st
  have hcount : (scanErrors sl (cfg.consecutiveErrors * 2).toNat).1 = 0 :=
    (scanErrors_count sl _).trans
      (specErrorCount_zero_of_no_errors sl cfg.consecutiveErrors he)
  unfold checkConsecutiveErrors
  dsimp only
  rw [hcount]
  rw [if_neg (by omega : ¬ (0 : Int) ≥ cfg.consecutiveErrors)]
  split <;> rfl

theorem checkMissedExecutions_none_of_no_missed
    (sl : List CronSchedule) (cfg : DetectionConfig)
    (hm : ∀ s ∈ sl, s.status ≠ "missed")
    (hc : 0 < cfg.maxMissedCount) :
    ∀ st : JobState, (checkMissedExecutions sl cfg st).2 = none := by
  intro st
  have hcount : sl.countP (fun s => s.status == "missed") = 0 := by
    rw [List.countP_eq_zero]
    intro x hx
    simp [hm x hx]
  unfold checkMissedExecutions
  dsimp only
  rw [hcount]
  rw [if_neg (by simpa using by omega : ¬ ((0 : Nat) : Int) ≥ cfg.maxMissedCount)]
  split <;> rfl

theorem isJobHealthy_true_of_healthy_batch (now : Int)
    (sl : List CronSchedule) (cfg : DetectionConfig)
    (hr : ∀ s ∈ sl, s.status = "running" → ∀ t, s.executedAt = some t →
      now - t ≤ cfg.maxRunningTime)
    (hp : ∀ s ∈ sl, s.status ≠ "pending")
    (he : ∀ s ∈ sl, s.status ≠ "error")
    (hm : ∀ s ∈ sl, s.status ≠ "missed")
    (hc1 : 0 < cfg.maxPendingCount) (hc2 : 0 < cfg.consecutiveErrors)
    (hc3 : 0 < cfg.maxMissedCount) :
    ∀ st : JobState, (isJobHealthy now sl cfg st).2 = true := by
  intro st
  unfold isJobHealthy
  rw [checkLongRunning_none_of_no_overrun now sl cfg hr st]
  simp only [Option.isSome_none, Bool.false_eq_true, if_false]
  rw [checkPendingAccumulation_none_of_no_pending sl cfg hp hc1]
  simp only [Option.isSome_none, Bool.false_eq_true, if_false]
  rw [checkConsecutiveErrors_none_of_no_errors sl cfg he hc2]
  simp only [Option.isSome_none, Bool.false_eq_true, if_false]
  rw [checkMissedExecutions_none_of_no_missed sl cfg hm hc3]
  simp only [Option.isSome_none, Bool.false_eq_true, if_false]

theorem analyzeJob_no_alert_of_healthy_batch (now : Int)
    (sl : List CronSchedule) (cfg : DetectionConfig)
    (hr : ∀ s ∈ sl, s.status = "running" → ∀ t, s.executedAt = some t →
      now - t ≤ cfg.maxRunningTime)
    (hp : ∀ s ∈ sl, s.status ≠ "pending")
    (he : ∀ s ∈ sl, s.status ≠ "error")
    (hm : ∀ s ∈ sl, s.status ≠ "missed")
    (hc1 : 0 < cfg.maxPendingCount) (hc2 : 0 < cfg.consecutiveErrors)
    (hc3 : 0 < cfg.maxMissedCount) :
    ∀ st : JobState, (analyzeJob now sl cfg st).2 = [] := by
  intro st
  unfold analyzeJob
  refine foldl_runCheck_all_none now (jobChecks now sl cfg) _ ?_
  intro c hc s
  simp only [jobChecks, List.mem_cons, List.mem_singleton] at hc
  rcases hc with h | h | h | h | h
  · subst h
    show (checkLongRunning now sl cfg s).2 = none
    rw [checkLongRunning_none_of_no_overrun now sl cfg hr s]
  · subst h
    exact checkPendingAccumulation_none_of_no_pending sl cfg hp hc1 s
  · subst h
    exact checkConsecutiveErrors_none_of_no_errors sl cfg he hc2 s
  · subst h
    exact checkMissedExecutions_none_of_no_missed sl cfg hm hc3 s
  · simp at h

theorem detectJob_no_alerting_of_healthy (now : Int) (j : String)
    (sl : List CronSchedule) (cfg : DetectionConfig) (st : JobState)
    (hh : (isJobHealthy now sl cfg st).2 = true) :
    ∀ t ∈ (detectJob now j sl cfg st).2, t.toState = "not_alerting" := by
  unfold detectJob
  dsimp only
  simp only [hh, Bool.not_true, Bool.false_and, Bool.false_eq_true,
    if_false, Bool.true_and]
  split <;> split <;> simp

/-- C9: under positive resolved thresholds, a job whose batch holds no
pending, error or missed record and no running record beyond
max_running_time yields no alert from the per-job evaluation of Analyze,
is classified healthy, and never receives a not_alerting to alerting
transition from the per-job transition detection, on every poll and from
every job state. -/
theorem healthy_batch_never_alerts (now : Int) (j : String)
    (sl : List CronSchedule) (cfg : DetectionConfig) (st : JobState)
    (hc1 : 0 < cfg.maxPendingCount) (hc2 : 0 < cfg.consecutiveErrors)
    (hc3 : 0 < cfg.maxMissedCount) (hc4 : 0 < cfg.maxRunningTime)
    (hc5 : 0 < cfg.thresholdChecks)
    (hp : ∀ s ∈ sl, s.status ≠ "pending")
    (he : ∀ s ∈ sl, s.status ≠ "error")
    (hm : ∀ s ∈ sl, s.status ≠ "missed")
    (hr : ∀ s ∈ sl, s.status = "running" → ∀ t, s.executedAt = some t →
      now - t ≤ cfg.maxRunningTime) :
    (analyzeJob now sl cfg st).2 = [] ∧
    (isJobHealthy now sl cfg st).2 = true ∧
    ∀ t ∈ (detectJob now j sl cfg st).2, t.toState = "not_alerting" := by
  have hh := isJobHealthy_true_of_healthy_batch now sl cfg hr hp he hm
    hc1 hc2 hc3 st
  exact ⟨analyzeJob_no_alert_of_healthy_batch now sl cfg hr hp he hm
    hc1 hc2 hc3 st, hh, detectJob_no_alerting_of_healthy now j sl cfg st hh⟩

theorem healthy_batch_never_alerts_witness :
    (0 : Int) < baseCfg.maxPendingCount ∧
    (∀ s ∈ [mkSched "a" "success" 5 (some 9)], s.status ≠ "pending") ∧
    (analyzeJob tnow [mkSched "a" "success" 5 (some 9)] baseCfg
      (newJobState "a")).2 = [] := by
  have h := healthy_batch_never_alerts tnow "a"
    [mkSched "a" "success" 5 (some 9)] baseCfg (newJobState "a")
    (by decide) (by decide) (by decide) (by decide) (by decide)
    (by decide) (by decide) (by decide) (by decide)
  exact ⟨by decide, by decide, h.1⟩

theorem foldl_runCheck_lastStatus (now : Int)
    (cs : List (JobState → JobState × Option StuckCronAlert)) :
    ∀ acc : JobState × List StuckCronAlert,
      (∀ c ∈ cs, ∀ s : JobState, ((c s).1).lastStatus = s.lastStatus) →
      (cs.foldl (runCheck now) acc).1.lastStatus = acc.1.lastStatus := by
  induction cs with
  | nil => intro acc _; rfl
  | cons c rest ih =>
    intro acc hk
    rw [List.foldl_cons]
    have hstep : (runCheck now acc c).1.lastStatus = acc.1.lastStatus := by
      rcases runCheck_cases now acc c with ⟨hst, _⟩ | ⟨_, _, _, hst, _⟩ <;>
        rw [hst] <;> exact hk c (by simp) acc.1
    exact (ih (runCheck now acc c)
      (fun c hc s => hk c (by simp [hc]) s)).trans hstep

theorem analyzeJob_lastStatus (now : Int) (sl : List CronSchedule)
    (cfg : DetectionConfig) (st : JobState) :
    (analyzeJob now sl cfg st).1.lastStatus = st.lastStatus := by
  unfold analyzeJob
  refine (foldl_runCheck_lastStatus now (jobChecks now sl cfg) _ ?_).trans rfl
  intro c hc s
  simp only [jobChecks, List.mem_cons, List.mem_singleton] at hc
  rcases hc with h | h | h | h | h
  · exact h ▸ (checkLongRunning_frame now sl cfg s).2.1
  · exact h ▸ (checkPendingAccumulation_frame sl cfg s).2.1
  · exact h ▸ (checkConsecutiveErrors_frame sl cfg s).2.1
  · exact h ▸ (checkMissedExecutions_frame sl cfg s).2.1
  · simp at h

theorem detectJob_lastStatus (now : Int) (j : String)
    (sl : List CronSchedule) (cfg : DetectionConfig) (st : JobState) :
    (detectJob now j sl cfg st).1.lastStatus = st.lastStatus := by
  have hf := (isJobHealthy_frame now sl cfg st).2.1
  unfold detectJob
  dsimp only
  split <;> split <;> split <;> dsimp only <;>
    first
      | exact hf
      | (refine ((getActualAlertReason_frame now sl cfg _).2.1).trans ?_
         dsimp only
         exact hf)

theorem checkPendingAccumulation_no_reset (sl : List CronSchedule)
    (cfg : DetectionConfig) (st : JobState) (hls : st.lastStatus = "") :
    (checkPendingAccumulation sl cfg st).1.consecutiveStuck =
      st.consecutiveStuck ∨
    (checkPendingAccumulation sl cfg st).1.consecutiveStuck =
      st.consecutiveStuck + 1 := by
  unfold checkPendingAccumulation
  dsimp only
  split
  · right
    split <;> rfl
  · rw [if_neg (by rw [hls]; decide)]
    left
    rfl

theorem checkConsecutiveErrors_no_reset (sl : List CronSchedule)
    (cfg : DetectionConfig) (st : JobState) (hls : st.lastStatus = "") :
    (checkConsecutiveErrors sl cfg st).1.consecutiveStuck =
      st.consecutiveStuck ∨
    (checkConsecutiveErrors sl cfg st).1.consecutiveStuck =
      st.consecutiveStuck + 1 := by
  unfold checkConsecutiveErrors
  dsimp only
  split
  · right
    split <;> (try split) <;> (try split) <;> rfl
  · rw [if_neg (by rw [hls]; decide)]
    left
    rfl

theorem checkMissedExecutions_no_reset (sl : List CronSchedule)
    (cfg : DetectionConfig) (st : JobState) (hls : st.lastStatus = "") :
    (checkMissedExecutions sl cfg st).1.consecutiveStuck =
      st.consecutiveStuck ∨
    (checkMissedExecutions sl cfg st).1.consecutiveStuck =
      st.consecutiveStuck + 1 := by
  unfold checkMissedExecutions
  dsimp only
  split
  · right
    split <;> rfl
  · rw [if_neg (by rw [hls]; decide)]
    left
    rfl

/-- C10: last_status starts empty on a freshly created job state and is
never assigned by the per-job evaluation or by the transition detection;
consequently, while last_status is empty, the conditional resets of the
pending, errors and missed heuristics never fire, so those three
heuristics only leave the shared counter unchanged or increment it, and
the long-running heuristic holds the only reset path. -/
theorem lastStatus_always_empty (now : Int) (j : String)
    (sl : List CronSchedule) (cfg : DetectionConfig) (st : JobState) :
    (newJobState j).lastStatus = "" ∧
    (analyzeJob now sl cfg st).1.lastStatus = st.lastStatus ∧
    (detectJob now j sl cfg st).1.lastStatus = st.lastStatus ∧
    (st.lastStatus = "" →
      ((checkPendingAccumulation sl cfg st).1.consecutiveStuck =
          st.consecutiveStuck ∨
        (checkPendingAccumulation sl cfg st).1.consecutiveStuck =
          st.consecutiveStuck + 1) ∧
      ((checkConsecutiveErrors sl cfg st).1.consecutiveStuck =
          st.consecutiveStuck ∨
        (checkConsecutiveErrors sl cfg st).1.consecutiveStuck =
          st.consecutiveStuck + 1) ∧
      ((checkMissedExecutions sl cfg st).1.consecutiveStuck =
          st.consecutiveStuck ∨
        (checkMissedExecutions sl cfg st).1.consecutiveStuck =
          st.consecutiveStuck + 1)) := by
  refine ⟨rfl, analyzeJob_lastStatus now sl cfg st,
    detectJob_lastStatus now j sl cfg st, ?_⟩
  intro hls
  exact ⟨checkPendingAccumulation_no_reset sl cfg st hls,
    checkConsecutiveErrors_no_reset sl cfg st hls,
    checkMissedExecutions_no_reset sl cfg st hls⟩

theorem lastStatus_always_empty_witness :
    (newJobState "a").lastStatus = "" ∧
    ((checkPendingAccumulation [mkSched "a" "pending" 5 none] baseCfg
        (newJobState "a")).1.consecutiveStuck =
        (newJobState "a").consecutiveStuck ∨
      (checkPendingAccumulation [mkSched "a" "pending" 5 none] baseCfg
        (newJobState "a")).1.consecutiveStuck =
        (newJobState "a").consecutiveStuck + 1) := by
  have h := lastStatus_always_empty tnow "a"
    [mkSched "a" "pending" 5 none] baseCfg (newJobState "a")
  exact ⟨h.1, (h.2.2.2 rfl).1⟩
